import Mathlib

/-!
Verification development for the `gridtable` package of chrisfenner/pandoctor.

The Go sources embedded here are `pkg/gridtable/gridtable.go` together with the
reader and writer files of the same package (provided unnamed).  All table text
is 7-bit ASCII, so Go's byte-indexed strings, `[]rune` slices and Unicode-aware
trimming coincide with a `List Char` model; strings are modelled as `List Char`
(`Str` below) throughout, with `String` kept only inside `Cell` to mirror the Go
struct.  Go `int` fields that can be negative (spans, indices, NumHeaderRows)
are modelled as `Int`; quantities that are list lengths are `Nat`.
Reads of Go slices are modelled with `getD` (out-of-range reads yield the zero
value); the Go code only indexes in bounds on states reachable through the API,
where the two semantics agree.
-/

namespace GridTable

/-- Go `minColumnWidth = 3` from gridtable.go. -/
def minColumnWidth : Nat := 3

/-- Character-list strings (all table text is ASCII). -/
abbrev Str := List Char

/-- Go `ColumnSpec`: width of the column, not counting separators. -/
structure ColumnSpec where
  width : Nat
  deriving DecidableEq

/-- Go `Cell`: text plus the number of ADDITIONAL rows/columns spanned. -/
structure Cell where
  text : String
  rowSpan : Int
  colSpan : Int
  deriving DecidableEq

/-- The zero value of Go's `Cell`. -/
def defaultCell : Cell := { text := "", rowSpan := 0, colSpan := 0 }

/-- Go `Config`. -/
structure Config where
  numHeaderRows : Int
  columns : List ColumnSpec
  deriving DecidableEq

/-- The closed set of sentinel errors declared in gridtable.go. -/
inductive GridError where
  | columnIndexOutOfRange
  | shadowedCell
  | negativeSpan
  | overlappingSpans
  | spanBeyondHeader
  | invalidColumnSpec
  | badWrap
  | malformedTable
  | readerNotDone
  deriving DecidableEq

deriving instance DecidableEq for Except

/-! ### Character and string helpers (Go standard library semantics) -/

/-- `unicode.IsSpace` restricted to ASCII, which is all that table text holds. -/
def isSpaceGo (c : Char) : Bool :=
  c = ' ' || c = '\t' || c = '\n' || c = '\u000B' || c = '\u000C' || c = '\r'

/-- Drop from the end of a list while a predicate holds. -/
def dropWhileEnd (p : Char → Bool) (l : Str) : Str :=
  (l.reverse.dropWhile p).reverse

/-- Go `strings.TrimSpace` (ASCII). -/
def trimSpace (l : Str) : Str :=
  dropWhileEnd isSpaceGo (l.dropWhile isSpaceGo)

/-- Go `strings.Trim(s, "\n")`. -/
def trimNewlines (l : Str) : Str :=
  dropWhileEnd (· = '\n') (l.dropWhile (· = '\n'))

/-- Go `strings.Split(s, sep)` for a single-character separator: splits at every
occurrence, keeping empty pieces. -/
def splitOnChar (sep : Char) : Str → List Str
  | [] => [[]]
  | c :: rest =>
    let r := splitOnChar sep rest
    if c = sep then [] :: r
    else
      match r with
      | [] => [[c]]
      | h :: t => (c :: h) :: t

/-- Go `strings.Split(s, "\n\n")`: leftmost, non-overlapping matches. -/
def splitDoubleNewline : Str → List Str
  | [] => [[]]
  | '\n' :: '\n' :: rest => [] :: splitDoubleNewline rest
  | c :: rest =>
    match splitDoubleNewline rest with
    | [] => [[c]]
    | h :: t => (c :: h) :: t

/-- Go `strings.Fields`: whitespace-separated maximal non-empty runs. -/
def fieldsOf (l : Str) : List Str :=
  (splitOnChar ' ' (l.map (fun c => if isSpaceGo c then ' ' else c))).filter (· ≠ [])

/-- Go `strings.Join(xs, sep)`. -/
def joinSep (sep : Str) : List Str → Str
  | [] => []
  | [x] => x
  | x :: xs => x ++ sep ++ joinSep sep xs

/-- Go slice expression `l[start:stop]` (in-bounds on all reachable inputs). -/
def sliceStr (l : Str) (start stop : Nat) : Str :=
  (l.drop start).take (stop - start)

/-! ### Word wrapping

Modelled from the spec: the wrapping collaborator (`muesli/reflow/wordwrap`,
an external dependency whose source is not part of this repository) computes
"word-wrapped line sets for a cell given its effective width".  The model
splits the text at explicit newlines (the Go writer sets `KeepNewlines`), then
greedily fills each line with whitespace-separated words up to the limit; a
word is never broken, so a word longer than the limit occupies a line by
itself that exceeds the limit. -/

/-- Greedy line filling: `cur` is the line under construction. -/
def fillWords (limit : Nat) : List Str → Str → List Str
  | [], cur => [cur]
  | w :: ws, cur =>
    if cur = [] then fillWords limit ws w
    else if cur.length + 1 + w.length ≤ limit then fillWords limit ws (cur ++ ' ' :: w)
    else cur :: fillWords limit ws w

/-- The words of a single physical line. -/
def wordsOf (l : Str) : List Str :=
  (splitOnChar ' ' l).filter (· ≠ [])

/-- Modelled from the spec: word-wrap `text` to `limit` columns, keeping
explicit newlines. -/
def wrapText (limit : Nat) (text : Str) : List Str :=
  (splitOnChar '\n' text).flatMap (fun ln => fillWords limit (wordsOf ln) [])

/-- All whitespace-delimited tokens of a cell text. -/
def wordsOfText (text : Str) : List Str :=
  (splitOnChar '\n' text).flatMap wordsOf

/-! ### Geometry helpers (gridtable.go) -/

/-- Go `calculateTableWidth`. -/
def calculateTableWidth (cols : List ColumnSpec) : Nat :=
  cols.foldl (fun acc col => acc + col.width + 1) 1

/-- Go `calculateTableHeight`. -/
def calculateTableHeight (rows : List Nat) : Nat :=
  rows.foldl (fun acc row => acc + row + 1) 1

/-- Go `cellWidth`: the cell's own column width plus, for each additionally
spanned column, that column's width and the reclaimed `|` position. -/
def cellWidthFn (cols : List ColumnSpec) (column : Nat) (cell : Cell) : Nat :=
  (List.range cell.colSpan.toNat).foldl
    (fun acc d => acc + (cols.getD (column + 1 + d) ⟨0⟩).width + 1)
    (cols.getD column ⟨0⟩).width

/-- Go `cellHeight`: the cell's own row height plus, for each additionally
spanned row, that row's height and the reclaimed separator row. -/
def cellHeightFn (rowHeights : List Nat) (row : Nat) (cell : Cell) : Nat :=
  (List.range cell.rowSpan.toNat).foldl
    (fun acc d => acc + rowHeights.getD (row + 1 + d) 0 + 1)
    (rowHeights.getD row 0)

/-- Go `lines`: wrap the cell text to the effective interior width
(`cellWidth - 2`, one padding space on each side) and fail with BadWrap if any
resulting line is still longer than the limit. -/
def linesFn (cols : List ColumnSpec) (column : Nat) (cell : Cell) :
    Except GridError (List Str) :=
  if (wrapText (cellWidthFn cols column cell - 2) cell.text.toList).any
      (fun l => cellWidthFn cols column cell - 2 < l.length) then .error .badWrap
  else .ok (wrapText (cellWidthFn cols column cell - 2) cell.text.toList)

/-! ### Writer state -/

/-- Go `Writer`.  `cells`, `written` and `shadowed` are the three parallel
grids; `shadowed` may be longer than the other two when a row span has
extended it into future rows. -/
structure Writer where
  config : Config
  currentRow : Nat
  cells : List (List Cell)
  written : List (List Bool)
  shadowed : List (List Bool)
  deriving DecidableEq

/-- Read a boolean grid slot; Go indexes in bounds wherever this is used. -/
def getB (g : List (List Bool)) (i j : Nat) : Bool :=
  (g.getD i []).getD j false

/-- Set a boolean grid slot (no-op out of range, where Go would panic). -/
def setB (g : List (List Bool)) (i j : Nat) : List (List Bool) :=
  g.set i ((g.getD i []).set j true)

/-- Read a cell grid slot. -/
def getCell (g : List (List Cell)) (i j : Nat) : Cell :=
  (g.getD i []).getD j defaultCell

/-- Go `NewWriter`: validates the column specs, then starts with
`currentRow = -1` and calls `NextRow`, leaving one fresh all-empty row
(the state below is the result of that initial `NextRow`). -/
def newWriter (config : Config) : Except GridError Writer :=
  if config.columns.length < 1 then .error .invalidColumnSpec
  else if config.columns.any (fun c => c.width < minColumnWidth) then .error .invalidColumnSpec
  else
    let n := config.columns.length
    .ok { config := config
          currentRow := 0
          cells := [List.replicate n defaultCell]
          written := [List.replicate n false]
          shadowed := [List.replicate n false] }

/-- Go `NextRow`: advances the current row; `shadowed` is extended only when a
prior span has not already done so (Go compares the pre-append lengths). -/
def nextRow (w : Writer) : Writer :=
  let n := w.config.columns.length
  { w with
    currentRow := w.currentRow + 1
    shadowed :=
      if w.shadowed.length = w.cells.length then w.shadowed ++ [List.replicate n false]
      else w.shadowed
    cells := w.cells ++ [List.replicate n defaultCell]
    written := w.written ++ [List.replicate n false] }

/-- `nextRow` iterated. -/
def nextRowN : Nat → Writer → Writer
  | 0, w => w
  | k + 1, w => nextRowN k (nextRow w)

/-- The header-straddle condition checked by Go `WriteColumn`. -/
def headerViolation (w : Writer) (cell : Cell) : Prop :=
  w.config.numHeaderRows ≠ 0 ∧
    (w.currentRow : Int) < w.config.numHeaderRows ∧
    w.config.numHeaderRows ≤ (w.currentRow : Int) + cell.rowSpan

instance (w : Writer) (cell : Cell) : Decidable (headerViolation w cell) := by
  unfold headerViolation; infer_instance

/-- One row `i0 + d` of the shadow-recording loop at the end of Go
`WriteColumn`: append a fresh all-false row when the loop has walked past the
end of the grid, then mark every covered slot of that row (skipping the
cell's own origin slot). -/
def markSlot (i0 j0 d : Nat) (g : List (List Bool)) (e : Nat) : List (List Bool) :=
  if d = 0 ∧ e = 0 then g else setB g (i0 + d) (j0 + e)

/-- All covered slots of row `i0 + d`, first appending the row if the loop has
walked past the end of the grid. -/
def shadowStep (n i0 j0 cs : Nat) (g : List (List Bool)) (d : Nat) : List (List Bool) :=
  let g2 := if g.length ≤ i0 + d then g ++ [List.replicate n false] else g
  (List.range (cs + 1)).foldl (markSlot i0 j0 d) g2

/-- The whole shadow-recording loop: rows `i0` through `i0 + rs`. -/
def shadowMark (g : List (List Bool)) (n i0 j0 cs rs : Nat) : List (List Bool) :=
  (List.range (rs + 1)).foldl (shadowStep n i0 j0 cs) g

/-- The validation phase of Go `WriteColumn`: all the checks, in Go's order,
before the first mutation.  The overlapping-spans loop's
`if i >= len(shadowed) break` is absorbed into `getB` (rows past the end read
as all-false). -/
def writeColumnCheck (w : Writer) (index : Int) (cell : Cell) : Option GridError :=
  if index < 0 then some .columnIndexOutOfRange
  else if (w.config.columns.length : Int) ≤ index then some .columnIndexOutOfRange
  else if cell.colSpan < 0 then some .negativeSpan
  else if cell.rowSpan < 0 then some .negativeSpan
  else if (w.config.columns.length : Int) ≤ index + cell.colSpan then
    some .columnIndexOutOfRange
  else if headerViolation w cell then some .spanBeyondHeader
  else if getB w.shadowed w.currentRow index.toNat then some .shadowedCell
  else if (List.range cell.colSpan.toNat).any
      (fun d => getB w.written w.currentRow (index.toNat + 1 + d)) then
    some .shadowedCell
  else if (List.range (cell.rowSpan.toNat + 1)).any (fun d =>
      (List.range (cell.colSpan.toNat + 1)).any
        (fun e => getB w.shadowed (w.currentRow + d) (index.toNat + e))) then
    some .overlappingSpans
  else none

/-- The mutation phase of Go `WriteColumn` ("Everything is OK. Write the
cell."): record the cell, mark it written, record the newly shadowed slots. -/
def writeColumnApply (w : Writer) (index : Int) (cell : Cell) : Writer :=
  { w with
    cells := w.cells.set w.currentRow ((w.cells.getD w.currentRow []).set index.toNat cell)
    written := setB w.written w.currentRow index.toNat
    shadowed := shadowMark w.shadowed w.config.columns.length w.currentRow index.toNat
      cell.colSpan.toNat cell.rowSpan.toNat }

/-- Go `WriteColumn`.  Returned pair is (error, receiver state after the
call), mirroring that Go runs every validation before mutating the receiver
and mutates only on the success path. -/
def writeColumn (w : Writer) (index : Int) (cell : Cell) : Option GridError × Writer :=
  match writeColumnCheck w index cell with
  | some e => (some e, w)
  | none => (none, writeColumnApply w index cell)

/-! ### Rendering (Go `Writer.String`) -/

/-- Except-valued map that stops at the first error (the Go loops return on
the first failing cell). -/
def mapE (f : A → Except GridError B) : List A → Except GridError (List B)
  | [] => .ok []
  | a :: as =>
    match f a with
    | .error e => .error e
    | .ok b =>
      match mapE f as with
      | .error e => .error e
      | .ok bs => .ok (b :: bs)

/-- The convenience trim at the top of Go `String`: drop the trailing row if no
slot in it was written or shadowed. -/
def trimmedCells (w : Writer) : List (List Cell) :=
  let lastRow := w.cells.length - 1
  let anyWritten := (List.range w.config.columns.length).any
    (fun j => getB w.written lastRow j || getB w.shadowed lastRow j)
  if anyWritten then w.cells else w.cells.take (w.cells.length - 1)

/-- The `cellHeights` double loop of Go `String` (`calculateCellHeight` is
`len ∘ lines`). -/
def cellHeightsOf (cols : List ColumnSpec) (cells : List (List Cell)) :
    Except GridError (List (List Nat)) :=
  mapE (fun row =>
    mapE (fun j => (linesFn cols j (row.getD j defaultCell)).map List.length)
      (List.range cols.length))
    cells

/-- First pass of row heights: tallest non-row-spanning cell, minimum 1. -/
def rowHeightsPass1 (cols : List ColumnSpec) (cells : List (List Cell))
    (cellH : List (List Nat)) : List Nat :=
  (List.range cells.length).map (fun i =>
    (List.range cols.length).foldl
      (fun acc j =>
        if 0 < (getCell cells i j).rowSpan then acc
        else max acc ((cellH.getD i []).getD j 0))
      1)

/-- One cell's step of the second row-heights pass of Go `String`, verbatim:
note that the guard and the distribution use `ColSpan` while the
already-available height uses `RowSpan` (the suspect mixup behind claim C2). -/
def pass2Step (cells : List (List Cell))
    (cellH : List (List Nat)) (rh : List Nat) (i j : Nat) : List Nat :=
  let cell := getCell cells i j
  if 0 < cell.colSpan then
    let heightToAdd : Int :=
      ((rh.drop (i + 1)).take cell.rowSpan.toNat).foldl
        (fun acc h => acc - ((h : Int) + 1))
        (((cellH.getD i []).getD j 0 : Int) - (rh.getD i 0 : Int))
    if 0 < heightToAdd then
      let per : Nat := ((heightToAdd + cell.colSpan - 1) / cell.colSpan).toNat
      (List.range (cell.colSpan.toNat + 1)).foldl
        (fun rh d => rh.set (i + d) (rh.getD (i + d) 0 + per))
        rh
    else rh
  else rh

/-- Second pass of row heights (span satisfaction), iterating row-major as the
Go code does. -/
def rowHeightsPass2 (cols : List ColumnSpec) (cells : List (List Cell))
    (cellH : List (List Nat)) (rh0 : List Nat) : List Nat :=
  (List.range cells.length).foldl
    (fun rh i =>
      (List.range cols.length).foldl (fun rh j => pass2Step cells cellH rh i j) rh)
    rh0

/-- The combined row-height computation used by Go `String` before drawing. -/
def writerRowHeights (w : Writer) : Except GridError (List Nat) :=
  let cells := trimmedCells w
  (cellHeightsOf w.config.columns cells).map (fun cellH =>
    rowHeightsPass2 w.config.columns cells cellH
      (rowHeightsPass1 w.config.columns cells cellH))

/-- The character canvas, stored row-major: `canvas[y][x]` is what Go stores in
`array[x][y]`. -/
abbrev Canvas := List (List Char)

/-- Write one canvas position (Go `array[x][y] = ch`). -/
def setC (cv : Canvas) (y x : Nat) (ch : Char) : Canvas :=
  cv.set y ((cv.getD y []).set x ch)

/-- Go `String`, "Draw the top pipes". -/
def drawTop (cols : List ColumnSpec) (cv : Canvas) : Canvas :=
  (cols.foldl
    (fun (p : Canvas × Nat) col =>
      let cv := (List.range col.width).foldl (fun cv n => setC cv 0 (p.2 + n) '-') p.1
      (setC cv 0 (p.2 + col.width) '+', p.2 + col.width + 1))
    (setC cv 0 0 '+', 1)).1

/-- Go `String`, "Draw the left pipes". -/
def drawLeft (rowHeights : List Nat) (cv : Canvas) : Canvas :=
  (rowHeights.foldl
    (fun (p : Canvas × Nat) rh =>
      let cv := (List.range rh).foldl (fun cv n => setC cv (p.2 + n) 0 '|') p.1
      (setC cv (p.2 + rh) 0 '+', p.2 + rh + 1))
    (cv, 1)).1

/-- Go `String`, "Draw all the boxes": the corner `+`s, the `|` run to the
right of the cell, and the `-`/`=` run below it (`=` exactly when
`NumHeaderRows == i+1+RowSpan`). -/
def drawBoxes (w : Writer) (cells : List (List Cell)) (rowHeights : List Nat)
    (cv : Canvas) : Canvas :=
  ((List.range cells.length).foldl
    (fun (p : Canvas × Nat) i =>
      let rh := rowHeights.getD i 0
      let y := p.2
      let cv :=
        ((List.range w.config.columns.length).foldl
          (fun (q : Canvas × Nat) j =>
            let wj := (w.config.columns.getD j ⟨0⟩).width
            let x := q.2
            let cv := setC q.1 (y - 1) (x - 1) '+'
            let cv := setC cv (y - 1) (x + wj) '+'
            let cv := setC cv (y + rh) (x - 1) '+'
            let cv := setC cv (y + rh) (x + wj) '+'
            let cv := (List.range rh).foldl (fun cv t => setC cv (y + t) (x + wj) '|') cv
            let sep : Char :=
              if w.config.numHeaderRows ≠ 0 ∧
                  w.config.numHeaderRows = (i : Int) + 1 + (getCell cells i j).rowSpan
              then '=' else '-'
            let cv := (List.range wj).foldl (fun cv t => setC cv (y + rh) (x + t) sep) cv
            (cv, x + wj + 1))
          (p.1, 1)).1
      (cv, y + rh + 1))
    (cv, 1)).1

/-- Go `drawCellContents`: blank the cell's interior rectangle, then draw its
wrapped lines one character right of the left border.  At the point Go calls
this the lines are known to wrap (any error would already have aborted
`String`), so the error case is read off as an empty list. -/
def drawOneCell (cols : List ColumnSpec) (rowHeights : List Nat) (i j x y : Nat)
    (cell : Cell) (cv : Canvas) : Canvas :=
  let width := cellWidthFn cols j cell
  let height := cellHeightFn rowHeights i cell
  let cv := (List.range width).foldl
    (fun cv dx => (List.range height).foldl (fun cv dy => setC cv (y + dy) (x + dx) ' ') cv)
    cv
  let ls := match linesFn cols j cell with | .ok ls => ls | .error _ => []
  (ls.foldl
    (fun (p : Canvas × Nat) line =>
      ((line.foldl
        (fun (q : Canvas × Nat) r => (setC q.1 (y + p.2) (x + 1 + q.2) r, q.2 + 1))
        (p.1, 0)).1,
       p.2 + 1))
    (cv, 0)).1

/-- Go `String`, "Draw the contents of all the (non-shadowed) cells". -/
def drawContents (w : Writer) (cells : List (List Cell)) (rowHeights : List Nat)
    (cv : Canvas) : Canvas :=
  ((List.range cells.length).foldl
    (fun (p : Canvas × Nat) i =>
      let rh := rowHeights.getD i 0
      let y := p.2
      let cv :=
        ((List.range w.config.columns.length).foldl
          (fun (q : Canvas × Nat) j =>
            let wj := (w.config.columns.getD j ⟨0⟩).width
            let cv :=
              if getB w.shadowed i j then q.1
              else drawOneCell w.config.columns rowHeights i j q.2 y (getCell cells i j) q.1
            (cv, q.2 + wj + 1))
          (p.1, 1)).1
      (cv, y + rh + 1))
    (cv, 1)).1

/-- Concatenate the canvas, one newline per canvas row. -/
def emitCanvas (cv : Canvas) : Str :=
  cv.foldl (fun acc row => acc ++ row ++ ['\n']) []

/-- Go `Writer.String`: trim the idle last row, compute wrapped cell heights
(first possible BadWrap exit), run the two row-height passes, then paint and
emit the canvas. -/
def writerString (w : Writer) : Except GridError Str :=
  let cells := trimmedCells w
  match cellHeightsOf w.config.columns cells with
  | .error e => .error e
  | .ok cellH =>
    let rowHeights := rowHeightsPass2 w.config.columns cells cellH
      (rowHeightsPass1 w.config.columns cells cellH)
    let width := calculateTableWidth w.config.columns
    let height := calculateTableHeight rowHeights
    let cv : Canvas := List.replicate height (List.replicate width ' ')
    let cv := drawTop w.config.columns cv
    let cv := drawLeft rowHeights cv
    let cv := drawBoxes w cells rowHeights cv
    let cv := drawContents w cells rowHeights cv
    .ok (emitCanvas cv)

/-! ### Reader -/

/-- Go `validateSeparator`, verbatim including its use of THREE booleans:
`headerDecided` and the named return `isHeader` are assigned in the first two
switch cases, while the later cases and the final `return` consult the local
`isHdr`, which is never assigned after its initialisation to `false`. -/
structure SepState where
  headerDecided : Bool
  isHeader : Bool
  isHdr : Bool
  deriving DecidableEq

/-- One character of the separator-scanning switch. -/
def sepChar (s : SepState) (c : Char) : Except GridError SepState :=
  if ¬s.headerDecided ∧ c = '-' then
    .ok { s with headerDecided := true, isHeader := false }
  else if ¬s.headerDecided ∧ c = '=' then
    .ok { s with headerDecided := true, isHeader := true }
  else if s.headerDecided ∧ ¬s.isHdr ∧ c = '-' then .ok s
  else if s.headerDecided ∧ s.isHdr ∧ c = '=' then .ok s
  else .error .malformedTable

/-- One interior segment of the separator: width check, then the char scan. -/
def sepSegment (p : List ColumnSpec × SepState) (seg : Str) :
    Except GridError (List ColumnSpec × SepState) :=
  if seg.length < minColumnWidth then .error .malformedTable
  else
    match seg.foldl (fun acc c => acc >>= fun s => sepChar s c) (.ok p.2) with
    | .error e => .error e
    | .ok s => .ok (p.1 ++ [⟨seg.length⟩], s)

/-- Go `validateSeparator`: returns the column specs and the `isHdr` flag that
the Go function returns (the never-assigned local, hence always `false`). -/
def validateSeparator (line : Str) : Except GridError (List ColumnSpec × Bool) :=
  if line.length = 0 then .error .malformedTable
  else if ¬(line.headD ' ' = '+' ∧ line.getLastD ' ' = '+') then .error .malformedTable
  else
    let interior := (line.drop 1).dropLast
    match (splitOnChar '+' interior).foldl
        (fun acc seg => acc >>= fun p => sepSegment p seg)
        (.ok ([], ⟨false, false, false⟩)) with
    | .error e => .error e
    | .ok (cols, s) =>
      if cols.length = 0 then .error .malformedTable
      else .ok (cols, s.isHdr)

/-- Result of Go `scanToNextSeparator`: a validated separator with the raw
content lines before it, clean end of input, or a malformed-table failure.
`rest` is the input left in the scanner. -/
inductive ScanOut where
  | sep (content : List Str) (isHdr : Bool) (rest : List Str)
  | eonInput
  | fail (e : GridError) (rest : List Str)
  deriving DecidableEq

/-- Go `scanToNextSeparator`.  A line that fails `validateSeparator` is
treated as row content.  When the scanner is exhausted, `bufio.Scanner.Text()`
returns the empty string (the token is set to nil once `Scan` returns false),
so the `len(scanner.Text()) == 0` special case always takes the `io.EOF`
branch and the "found content past the end of the table" return is
unreachable. -/
def scanToNextSeparator (config : Config) : List Str → ScanOut
  | [] => .eonInput
  | line :: rest =>
    match validateSeparator line with
    | .error _ =>
      match scanToNextSeparator config rest with
      | .sep content isHdr r => .sep (line :: content) isHdr r
      | .eonInput => .eonInput
      | .fail e r => .fail e r
    | .ok (cols, isHdr) =>
      if cols.length ≠ config.columns.length then .fail .malformedTable rest
      else if (List.range cols.length).any
          (fun i => (cols.getD i ⟨0⟩).width ≠ (config.columns.getD i ⟨0⟩).width) then
        .fail .malformedTable rest
      else .sep [] isHdr rest

/-- The span-detection walk of Go `cellsFromContent`: state is
(currentCellIndex, span, dx, result). -/
def detectSpans (cols : List ColumnSpec) (line0 : Str) : List (Option Cell) :=
  ((cols.foldl
    (fun (p : Nat × Nat × Nat × List (Option Cell)) col =>
      let (cur, span, dx, result) := p
      let dx := dx + 1 + col.width
      if line0.getD dx ' ' = '|' then
        (cur + 1 + span, 0, dx,
         result.set cur (some { text := "", rowSpan := 0, colSpan := (span : Int) }))
      else (cur, span + 1, dx, result))
    (0, 0, 0, List.replicate cols.length none)).2.2.2)

/-- Go `readCellContents`: rectangular slice `[start, stop)` of every line,
trimmed, newline-joined, split into paragraphs at blank lines, words rejoined
with single spaces. -/
def readCellContents (readLines : List Str) (start stop : Nat) : Str :=
  let joined := readLines.foldl
    (fun acc l => acc ++ trimSpace (sliceStr l start stop) ++ ['\n']) []
  let paragraphs := (splitDoubleNewline joined).map (fun p => joinSep [' '] (fieldsOf p))
  trimNewlines (joinSep ['\n', '\n'] paragraphs)

/-- The text-population loop of Go `cellsFromContent`, verbatim: the horizontal
extent adds `config.Columns[i].Width` once per covered column — the loop
variable `j` is unused, so the FIRST covered column's width is used for every
covered column (the suspect slip behind claim C3) — plus one reclaimed `|`
position per additional spanned column. -/
def populateCells (cols : List ColumnSpec) (readLines : List Str)
    (cells : List (Option Cell)) : List (Option Cell) :=
  ((cells.enum.foldl
    (fun (p : Nat × List (Option Cell)) (iq : Nat × Option Cell) =>
      match iq.2 with
      | none => p
      | some cell =>
        let i := iq.1
        let dx := (List.range (cell.colSpan.toNat + 1)).foldl
          (fun acc _ => acc + (cols.getD i ⟨0⟩).width) 0
        let dx := dx + cell.colSpan.toNat
        let text := readCellContents readLines p.1 (p.1 + dx)
        (p.1 + dx + 1,
         p.2.set i (some { cell with text := String.mk text })))
    (1, cells)).2)

/-- Go `cellsFromContent`. -/
def cellsFromContent (config : Config) (readLines : List Str) :
    Except GridError (List (Option Cell)) :=
  if readLines.length = 0 then .error .malformedTable
  else
    let expectedLineLen := config.columns.foldl (fun acc col => acc + col.width + 1) 1
    if readLines.any (fun l => l.length ≠ expectedLineLen) then .error .malformedTable
    else if readLines.any (fun l => ¬(l.headD ' ' = '|' ∧ l.getLastD ' ' = '|')) then
      .error .malformedTable
    else
      .ok (populateCells config.columns readLines
        (detectSpans config.columns (readLines.headD [])))

/-- Go `Reader`: the scanner is the list of not-yet-consumed input lines. -/
structure Reader where
  rlines : List Str
  config : Config
  numRows : Nat
  done : Bool
  deriving DecidableEq

/-- Go `NewReader`: consume the top line, which must be a valid non-header
separator. -/
def newReader (input : List Str) : Except GridError Reader :=
  match input with
  | [] => .error .malformedTable
  | top :: rest =>
    match validateSeparator top with
    | .error e => .error e
    | .ok (cols, isHdr) =>
      if isHdr then .error .malformedTable
      else .ok { rlines := rest
                 config := { numHeaderRows := 0, columns := cols }
                 numRows := 0
                 done := false }

/-- Outcome of draining the `Read()` iterator: the yielded rows and the final
reader state, or the error that the iterator yielded and the state at that
point (`done` still false). -/
inductive DrainResult where
  | allRows (rows : List (List (Option Cell))) (r : Reader)
  | failed (e : GridError) (r : Reader)
  deriving DecidableEq

/-- The loop body of Go `Read()` run to exhaustion (fuel is one more than the
number of input lines, which the loop can never exceed since every iteration
consumes at least the separator line). -/
def readAllFuel : Nat → Reader → List (List (Option Cell)) → DrainResult
  | 0, r, _ => .failed .malformedTable r
  | fuel + 1, r, acc =>
    match scanToNextSeparator r.config r.rlines with
    | .eonInput => .allRows acc.reverse { r with rlines := [], done := true }
    | .fail e rest => .failed e { r with rlines := rest }
    | .sep content isHdr rest =>
      match cellsFromContent r.config content with
      | .error e => .failed e { r with rlines := rest }
      | .ok cells =>
        let numRows := r.numRows + 1
        let config :=
          if isHdr then { r.config with numHeaderRows := (numRows : Int) } else r.config
        readAllFuel fuel
          { r with rlines := rest, numRows := numRows, config := config }
          (cells :: acc)

/-- Go `GetConfig`. -/
def getConfig (r : Reader) : Except GridError Config :=
  if r.done then .ok r.config else .error .readerNotDone

/-- Drain a whole table: `NewReader`, all of `Read()`, then `GetConfig`. -/
def drainTable (input : List Str) :
    Except GridError (List (List (Option Cell)) × Config) :=
  match newReader input with
  | .error e => .error e
  | .ok r =>
    match readAllFuel (r.rlines.length + 1) r [] with
    | .failed e _ => .error e
    | .allRows rows r2 =>
      match getConfig r2 with
      | .error e => .error e
      | .ok cfg => .ok (rows, cfg)

/-- `GetConfig` after the `Read()` sequence stopped (drained or failed). -/
def drainThenGetConfig (input : List Str) : Except GridError Config :=
  match newReader input with
  | .error e => .error e
  | .ok r =>
    match readAllFuel (r.rlines.length + 1) r [] with
    | .failed _ r2 => getConfig r2
    | .allRows _ r2 => getConfig r2

/-- `bufio.ScanLines` tokenisation of a rendered table string: split at every
newline; a trailing newline produces no final empty token. -/
def splitLines (s : Str) : List Str :=
  let parts := splitOnChar '\n' s
  if parts.getLastD [] = [] then parts.dropLast else parts

/-! ### Concrete states used by the claims -/

/-- Shorthand for building a cell. -/
def mkCell (t : String) (rs cs : Int) : Cell := { text := t, rowSpan := rs, colSpan := cs }

/-- Unwrap a `newWriter` result known to succeed. -/
def writerFromOk (x : Except GridError Writer) : Writer :=
  match x with
  | .ok w => w
  | .error _ =>
    { config := { numHeaderRows := 0, columns := [] }
      currentRow := 0, cells := [], written := [], shadowed := [] }

/-- Fresh writer over two width-3 columns. -/
def wTwoCols : Writer :=
  writerFromOk (newWriter { numHeaderRows := 0, columns := [⟨3⟩, ⟨3⟩] })

/-- Fresh writer over one width-3 column. -/
def wOneCol : Writer :=
  writerFromOk (newWriter { numHeaderRows := 0, columns := [⟨3⟩] })

/-- The 2x2 header table of the repository's own tests, written through the
Writer API exactly as `TestBasicTable` does. -/
def headerTableWriter : Writer :=
  let w := writerFromOk (newWriter { numHeaderRows := 1, columns := [⟨3⟩, ⟨3⟩] })
  let w := (writeColumn w 0 (mkCell "A" 0 0)).2
  let w := (writeColumn w 1 (mkCell "B" 0 0)).2
  let w := nextRow w
  let w := (writeColumn w 0 (mkCell "C" 0 0)).2
  (writeColumn w 1 (mkCell "D" 0 0)).2

/-- The header table text, as the Writer renders it and as the repository's
reader tests expect to decode it. -/
def headerTableText : String :=
  "+---+---+\n| A | B |\n+===+===+\n| C | D |\n+---+---+\n"

/-- The same table as scanner lines. -/
def headerTableLines : List Str :=
  ["+---+---+", "| A | B |", "+===+===+", "| C | D |", "+---+---+"].map String.toList

set_option maxRecDepth 40000

/-! ### Claim C1 -/

/-- C1: the claim states that for non-spanning, non-wrapped grids,
decoding a rendered table yields the original cells and Config, including
`numHeaderRows`.  On the code this fails for every table with a header:
rendering the repository's own 2x2 test grid with `numHeaderRows = 1`
produces exactly the expected header table text, but decoding that text fails
with MalformedTable (and `GetConfig` then fails with ReaderNotDone), because
`validateSeparator` rejects the `+===+===+` separator: its switch consults the
never-assigned local `isHdr` instead of `isHeader`, so any `=` after the first
separator character is "unexpected".  The repository's own reader test for
this exact table contradicts the code. -/
theorem c1_header_roundtrip_fails :
    writerString headerTableWriter = .ok headerTableText.toList ∧
    splitLines headerTableText.toList = headerTableLines ∧
    drainTable headerTableLines = .error .malformedTable ∧
    drainThenGetConfig headerTableLines = .error .readerNotDone := by
  decide

/-! ### Claim C2 -/

/-- A 2-row, one-column (width 5) table whose first cell spans both rows and
holds four lines of text, built through the Writer API. -/
def rowSpanWriter : Writer :=
  let w := writerFromOk (newWriter { numHeaderRows := 0, columns := [⟨5⟩] })
  let w := (writeColumn w 0 (mkCell "a\nb\nc\nd" 1 0)).2
  nextRow w

/-- C2: the claim states that a row-spanning cell whose wrapped height (4)
exceeds the height available over the spanned rows (1 + 1 + 1 reclaimed
separator = 3) makes the Writer grow the spanned rows.  The code's second
row-height pass triggers on `ColSpan > 0` instead of `RowSpan > 0` (and
divides the deficit by `ColSpan`), so for this cell (RowSpan 1, ColSpan 0) no
row grows: the heights stay [1, 1] and the rendered text is corrupted, the
cell's third and fourth lines overwriting the separator and bottom border. -/
theorem c2_rowspan_height_not_grown :
    cellHeightsOf [⟨5⟩] (trimmedCells rowSpanWriter) = .ok [[4], [1]] ∧
    writerRowHeights rowSpanWriter = .ok [1, 1] ∧
    1 + (1 + 1) < 4 ∧
    writerString rowSpanWriter =
      .ok ("+-----+\n| a   |\n+ b   +\n| c   |\n+-d---+\n").toList := by
  decide

/-! ### Claim C3 -/

/-- One row block of a two-column table with widths 3 and 5, whose single cell
spans both columns; the full horizontal extent is 3 + 5 + 1 = 9 characters. -/
def spanBlockLines : List Str := [("| AB CDEF |").toList]

/-- The column layout for `spanBlockLines`. -/
def spanBlockConfig : Config := { numHeaderRows := 0, columns := [⟨3⟩, ⟨5⟩] }

/-- C3: the claim states the cell's text is sliced at the sum of the covered
columns' widths plus one reclaimed border per extra column (3 + 5 + 1 = 9,
i.e. the range [1, 10), which reads "AB CDEF").  The code's extent loop adds
`config.Columns[i].Width` — the first covered column — once per covered column
(its loop variable `j` is unused), giving 3 + 3 + 1 = 7 and the truncated text
"AB CDE". -/
theorem c3_span_slice_uses_first_column_width :
    cellsFromContent spanBlockConfig spanBlockLines =
      .ok [some { text := "AB CDE", rowSpan := 0, colSpan := 1 }, none] ∧
    readCellContents spanBlockLines 1 10 = ("AB CDEF").toList := by
  decide

/-! ### Claim C5 -/

/-- A complete one-cell table followed by a non-blank line after its final
separator. -/
def trailingGarbageLines : List Str :=
  ["+---+", "| A |", "+---+", "GARBAGE"].map String.toList

/-- C5: the claim states that non-blank content after the final separator
makes draining `Read()` fail with MalformedTable.  It does not: the trailing
line is accumulated as row content, the scanner then reports end of input, and
because `bufio.Scanner.Text()` is empty once `Scan` returns false, the
"found content past the end of the table" branch of `scanToNextSeparator` is
unreachable — the drain ends cleanly and `GetConfig` succeeds. -/
theorem c5_trailing_content_ignored :
    drainTable trailingGarbageLines =
      .ok ([[some (mkCell "A" 0 0)]], { numHeaderRows := 0, columns := [⟨3⟩] }) := by
  decide

/-! ### Claim C8 -/

/-- C8: the claim states that after draining, `getConfig()` returns the Config
whose `numHeaderRows` counts the rows before the `=` separator.  On the
repository's own header-table test input the drain instead fails with
MalformedTable (the `=` separator is unparseable, see C1/C10), so `getConfig`
keeps failing with ReaderNotDone and the promised Config is never produced;
`numHeaderRows` can never be discovered because `validateSeparator` always
returns the never-assigned `isHdr` local (constantly false). -/
theorem c8_header_config_never_produced :
    (match readAllFuel 6 { rlines := headerTableLines.drop 1,
                           config := { numHeaderRows := 0, columns := [⟨3⟩, ⟨3⟩] },
                           numRows := 0, done := false } [] with
      | .failed e r => (some e, r.done, getConfig r)
      | .allRows _ r => (none, r.done, getConfig r)) =
      (some .malformedTable, false, .error .readerNotDone) ∧
    newReader headerTableLines =
      .ok { rlines := headerTableLines.drop 1,
            config := { numHeaderRows := 0, columns := [⟨3⟩, ⟨3⟩] },
            numRows := 0, done := false } := by
  decide

/-! ### Claim C10 -/

/-- C10: the claim states a separator is accepted only when all interior
segments use one uniform character (all `-` or all `=`), and that a mixed line
always fails with MalformedTable.  In the code `validateSeparator` consults
the never-assigned local `isHdr` (constantly false) instead of `isHeader`:
a uniform `=` separator (`+===+===+` — accepted by the repository's own
tests as a header line) is REJECTED at its second character, while the mixed
line `+=--+---+` is ACCEPTED as an ordinary separator; and a trailing mixed
separator line such as `+---+===+` does not make `Read()` fail — it is treated
as content and the drain ends cleanly at end of input. -/
theorem c10_separator_uniformity_broken :
    validateSeparator ("+===+===+").toList = .error .malformedTable ∧
    validateSeparator ("+=--+---+").toList = .ok ([⟨3⟩, ⟨3⟩], false) ∧
    drainTable (["+---+---+", "| A | B |", "+---+===+"].map String.toList) =
      .ok ([], { numHeaderRows := 0, columns := [⟨3⟩, ⟨3⟩] }) := by
  decide

/-! ### Claim C4, counterexample -/

/-- C4 counterexample: two cells whose footprints intersect (both have origin
(0,0) of a fresh two-column writer, so the footprints share that slot); the
claim says the second write must fail with OverlappingSpans or ShadowedCell,
but both writes succeed — `WriteColumn` never checks whether the ORIGIN slot
itself was already written (its written-slot loop starts at `index + 1`), so a
second write to the same slot silently overwrites the first. -/
theorem c4_same_origin_overwrite_succeeds :
    (writeColumn wTwoCols 0 (mkCell "A" 0 0)).1 = none ∧
    (writeColumn (writeColumn wTwoCols 0 (mkCell "A" 0 0)).2 0 (mkCell "B" 0 0)).1 =
      none := by
  decide

/-! ### Claim C7, counterexample -/

/-- C7 counterexample: with one column, `index = 0`, `colSpan = 1` and
`rowSpan = -1`, the claim's condition holds (`index + colSpan` reaches past
the last column), but the error is NegativeSpan, not ColumnIndexOutOfRange:
the negative-span checks run before the span-bound check. -/
theorem c7_negative_rowspan_preempts :
    ¬(((writeColumn wOneCol 0 (mkCell "" (-1) 1)).1 = some .columnIndexOutOfRange) ↔
      ((0 : Int) < 0 ∨ (wOneCol.config.columns.length : Int) ≤ 0 ∨
        (wOneCol.config.columns.length : Int) ≤ 0 + (mkCell "" (-1) 1).colSpan)) := by
  decide

/-! ### Claim C9 -/

/-- C9: whenever `WriteColumn` returns an error, the Writer state is exactly
what it was before the call: every validation in the Go function precedes the
first mutation, and each error return leaves the receiver untouched. -/
theorem c9_error_leaves_writer_unchanged (w : Writer) (index : Int) (cell : Cell)
    (e : GridError) (h : (writeColumn w index cell).1 = some e) :
    (writeColumn w index cell).2 = w := by
  unfold writeColumn at h ⊢
  cases hc : writeColumnCheck w index cell <;> simp [hc] at h ⊢

/-- C9 witness: a concrete erroring call (column index out of range on a fresh
one-column writer) returns the state unchanged. -/
theorem c9_witness :
    (writeColumn wOneCol 5 (mkCell "X" 0 0)).2 = wOneCol :=
  c9_error_leaves_writer_unchanged wOneCol 5 (mkCell "X" 0 0)
    .columnIndexOutOfRange (by decide)

/-- The error component of `writeColumn` is exactly the validation phase. -/
theorem writeColumn_fst (w : Writer) (index : Int) (cell : Cell) :
    (writeColumn w index cell).1 = writeColumnCheck w index cell := by
  unfold writeColumn
  cases hc : writeColumnCheck w index cell <;> simp

/-! ### Claim C7, amended -/

/-- C7 amended: `writeColumn` fails with ColumnIndexOutOfRange exactly when
the index is negative, the index is at least the column count, or the spans
are themselves admissible (`rowSpan ≥ 0`) and `index + colSpan` lands at or
past the column count (the span would leave the table); when a span is
negative and the index is otherwise in range the error is NegativeSpan
instead, because those checks run first. -/
theorem c7_out_of_range_iff (w : Writer) (index : Int) (cell : Cell) :
    (writeColumn w index cell).1 = some .columnIndexOutOfRange ↔
      (index < 0 ∨ (w.config.columns.length : Int) ≤ index ∨
        (0 ≤ cell.rowSpan ∧
          (w.config.columns.length : Int) ≤ index + cell.colSpan)) := by
  rw [writeColumn_fst]
  unfold writeColumnCheck
  split_ifs with h1 h2 h3 h4 h5 h6 h7 h8 h9 <;> simp <;> omega

/-- C7 witness: a fresh single-column writer rejects column index 2 with
ColumnIndexOutOfRange. -/
theorem c7_witness :
    (writeColumn wOneCol 2 (mkCell "X" 0 0)).1 = some .columnIndexOutOfRange :=
  (c7_out_of_range_iff wOneCol 2 (mkCell "X" 0 0)).mpr (by decide)

/-! ### Claim C6: an unbreakable over-long token forces BadWrap -/

/-- Greedy filling never hides an over-long word: if some word to place (or
the line under construction) is longer than the limit, some emitted line is
longer than the limit. -/
theorem fillWords_exists_long (limit : Nat) :
    ∀ (ws : List Str) (cur : Str),
      ((∃ w ∈ ws, limit < w.length) ∨ limit < cur.length) →
      ∃ l ∈ fillWords limit ws cur, limit < l.length := by
  intro ws
  induction ws with
  | nil =>
    intro cur h
    rcases h with ⟨w, hw, _⟩ | h
    · simp at hw
    · exact ⟨cur, by simp [fillWords], h⟩
  | cons w ws ih =>
    intro cur h
    by_cases hcur : cur = []
    · rw [fillWords, if_pos hcur]
      apply ih
      rcases h with ⟨x, hx, hlong⟩ | hlong
      · rcases List.mem_cons.mp hx with rfl | hx
        · exact Or.inr hlong
        · exact Or.inl ⟨x, hx, hlong⟩
      · subst hcur; simp at hlong
    · by_cases hfit : cur.length + 1 + w.length ≤ limit
      · rw [fillWords, if_neg hcur, if_pos hfit]
        apply ih
        rcases h with ⟨x, hx, hlong⟩ | hlong
        · rcases List.mem_cons.mp hx with rfl | hx
          · refine Or.inr ?_
            simp only [List.length_append, List.length_cons]
            omega
          · exact Or.inl ⟨x, hx, hlong⟩
        · refine Or.inr ?_
          simp only [List.length_append, List.length_cons]
          omega
      · rw [fillWords, if_neg hcur, if_neg hfit]
        rcases h with ⟨x, hx, hlong⟩ | hlong
        · rcases List.mem_cons.mp hx with heq | hx
          · obtain ⟨l, hl, hllong⟩ := ih w (Or.inr (heq ▸ hlong))
            exact ⟨l, List.mem_cons_of_mem _ hl, hllong⟩
          · obtain ⟨l, hl, hllong⟩ := ih w (Or.inl ⟨x, hx, hlong⟩)
            exact ⟨l, List.mem_cons_of_mem _ hl, hllong⟩
        · exact ⟨cur, List.mem_cons_self _ _, hlong⟩

/-- An over-long token of the text survives into some over-long wrapped line. -/
theorem wrapText_exists_long (limit : Nat) (text : Str) (word : Str)
    (hmem : word ∈ wordsOfText text) (hlong : limit < word.length) :
    ∃ l ∈ wrapText limit text, limit < l.length := by
  unfold wordsOfText at hmem
  obtain ⟨ln, hln, hwln⟩ := List.mem_flatMap.mp hmem
  obtain ⟨l, hl, hllong⟩ :=
    fillWords_exists_long limit (wordsOf ln) [] (Or.inl ⟨word, hwln, hlong⟩)
  exact ⟨l, List.mem_flatMap.mpr ⟨ln, hln, hl⟩, hllong⟩

/-- The only error `lines` can produce is BadWrap. -/
theorem linesFn_error (cols : List ColumnSpec) (column : Nat) (cell : Cell)
    (e : GridError) (h : linesFn cols column cell = .error e) : e = .badWrap := by
  unfold linesFn at h
  split_ifs at h with hc
  injection h with h2
  exact h2.symm

/-- A whitespace-delimited token longer than the effective interior width
makes `lines` fail with BadWrap. -/
theorem linesFn_badWrap_of_long_word (cols : List ColumnSpec) (column : Nat)
    (cell : Cell)
    (h : ∃ word ∈ wordsOfText cell.text.toList,
      cellWidthFn cols column cell - 2 < word.length) :
    linesFn cols column cell = .error .badWrap := by
  obtain ⟨word, hmem, hlong⟩ := h
  obtain ⟨l, hl, hllong⟩ :=
    wrapText_exists_long (cellWidthFn cols column cell - 2) cell.text.toList word hmem hlong
  unfold linesFn
  rw [if_pos]
  exact List.any_eq_true.mpr ⟨l, hl, decide_eq_true hllong⟩

/-- Any error of `mapE` comes from an element. -/
theorem mapE_error_mem {A B : Type} (f : A → Except GridError B) :
    ∀ (l : List A) (e : GridError), mapE f l = .error e → ∃ a ∈ l, f a = .error e := by
  intro l
  induction l with
  | nil => intro e h; simp [mapE] at h
  | cons a as ih =>
    intro e h
    rw [mapE] at h
    rcases hfa : f a with e' | b
    · rw [hfa] at h
      cases h
      exact ⟨a, List.mem_cons_self _ _, hfa⟩
    · rw [hfa] at h
      rcases hrest : mapE f as with e' | bs
      · rw [hrest] at h
        cases h
        obtain ⟨x, hx, hfx⟩ := ih e hrest
        exact ⟨x, List.mem_cons_of_mem _ hx, hfx⟩
      · rw [hrest] at h
        cases h

/-- If some element fails and every failure is BadWrap, `mapE` is BadWrap. -/
theorem mapE_badWrap {A B : Type} (f : A → Except GridError B) :
    ∀ (l : List A) (a : A), a ∈ l → (∃ e, f a = .error e) →
      (∀ x e, f x = .error e → e = .badWrap) → mapE f l = .error .badWrap := by
  intro l
  induction l with
  | nil => intro a ha; simp at ha
  | cons b bs ih =>
    intro a ha he hall
    rcases hfb : f b with e' | v
    · simp only [mapE, hfb]
      rw [hall b e' hfb]
    · simp only [mapE, hfb]
      rcases List.mem_cons.mp ha with heq | ha2
      · obtain ⟨e, hfa⟩ := he
        rw [heq] at hfa
        rw [hfa] at hfb
        exact Except.noConfusion hfb
      · rw [ih a ha2 he hall]

/-- A BadWrap from one cell's `lines` makes the whole height computation fail
with BadWrap. -/
theorem cellHeightsOf_badWrap (cols : List ColumnSpec) (cells : List (List Cell))
    (i j : Nat) (hi : i < cells.length) (hj : j < cols.length)
    (hbad : linesFn cols j (getCell cells i j) = .error .badWrap) :
    cellHeightsOf cols cells = .error .badWrap := by
  unfold cellHeightsOf
  have hrowmem : cells.getD i [] ∈ cells := by
    rw [List.getD_eq_getElem?_getD, List.getElem?_eq_getElem hi]
    exact List.getElem_mem _
  have hallinner : ∀ (row : List Cell) (x : Nat) (e : GridError),
      (linesFn cols x (row.getD x defaultCell)).map List.length = .error e →
      e = .badWrap := by
    intro row x e h
    rcases hl : linesFn cols x (row.getD x defaultCell) with e' | v
    · rw [hl] at h
      cases h
      exact linesFn_error cols x _ e hl
    · rw [hl] at h
      cases h
  refine mapE_badWrap _ cells (cells.getD i []) hrowmem ⟨.badWrap, ?_⟩ ?_
  · refine mapE_badWrap _ (List.range cols.length) j (List.mem_range.mpr hj) ?_
      (hallinner (cells.getD i []))
    refine ⟨.badWrap, ?_⟩
    have : getCell cells i j = (cells.getD i []).getD j defaultCell := rfl
    rw [← this, hbad]
    rfl
  · intro row e h
    obtain ⟨x, _, hfx⟩ := mapE_error_mem _ (List.range cols.length) e h
    exact hallinner row x e hfx

/-- C6: any table (Writer state) holding a cell whose text contains an
unbreakable token — no spaces, no newlines, not even a hyphen break point —
longer than the cell's effective interior width (`cellWidth - 2`, which for a
non-spanning cell is `columnWidth - 2`) fails to render, with BadWrap. -/
theorem c6_unbreakable_token_badwrap (w : Writer) (i j : Nat)
    (hi : i < (trimmedCells w).length) (hj : j < w.config.columns.length)
    (htok : ∃ word ∈ wordsOfText (getCell (trimmedCells w) i j).text.toList,
      '-' ∉ word ∧
      cellWidthFn w.config.columns j (getCell (trimmedCells w) i j) - 2 < word.length) :
    writerString w = .error .badWrap := by
  obtain ⟨word, hmem, _, hlong⟩ := htok
  have hbad := linesFn_badWrap_of_long_word w.config.columns j
    (getCell (trimmedCells w) i j) ⟨word, hmem, hlong⟩
  have hch := cellHeightsOf_badWrap w.config.columns (trimmedCells w) i j hi hj hbad
  unfold writerString
  simp only [hch]

/-- The repository's `TestFailedWordWrap` input: a single width-10 column and
the unbreakable token "loremipsum". -/
def badWrapWriter : Writer :=
  let w := writerFromOk (newWriter { numHeaderRows := 0, columns := [⟨10⟩] })
  (writeColumn w 0 (mkCell "loremipsum" 0 0)).2

/-- C6 witness: rendering `badWrapWriter` fails with BadWrap. -/
theorem c6_witness : writerString badWrapWriter = .error .badWrap :=
  c6_unbreakable_token_badwrap badWrapWriter 0 0 (by decide) (by decide)
    ⟨("loremipsum").toList, by decide, by decide, by decide⟩

/-! ### Grid lemmas for the shadow bookkeeping -/

/-- All rows of a boolean grid have width `n`. -/
def GridDims (g : List (List Bool)) (n : Nat) : Prop :=
  ∀ row ∈ g, row.length = n

instance (g : List (List Bool)) (n : Nat) : Decidable (GridDims g n) := by
  unfold GridDims
  infer_instance

/-- `getD` at an in-range set position. -/
theorem getD_set_self {α : Type} (l : List α) (i : Nat) (a d : α)
    (h : i < l.length) : (l.set i a).getD i d = a := by
  rw [List.getD_eq_getElem?_getD, List.getElem?_set_eq_of_lt _ h, Option.getD_some]

/-- `getD` away from the set position. -/
theorem getD_set_ne {α : Type} (l : List α) {i i2 : Nat} (a d : α)
    (h : i2 ≠ i) : (l.set i2 a).getD i d = l.getD i d := by
  rw [List.getD_eq_getElem?_getD, List.getElem?_set_ne h, ← List.getD_eq_getElem?_getD]

/-- `getD` inside the left part of an append. -/
theorem getD_append_left {α : Type} (l m : List α) (i : Nat) (d : α)
    (h : i < l.length) : (l ++ m).getD i d = l.getD i d := by
  rw [List.getD_eq_getElem?_getD, List.getElem?_append_left h,
    ← List.getD_eq_getElem?_getD]

/-- `getD` past the end of the list. -/
theorem getD_of_length_le {α : Type} (l : List α) (i : Nat) (d : α)
    (h : l.length ≤ i) : l.getD i d = d := by
  rw [List.getD_eq_getElem?_getD, List.getElem?_eq_none h]
  rfl

/-- The in-range row of a grid is a member of the grid. -/
theorem getD_mem {α : Type} (l : List α) (i : Nat) (d : α) (h : i < l.length) :
    l.getD i d ∈ l := by
  rw [List.getD_eq_getElem?_getD, List.getElem?_eq_getElem h]
  exact List.getElem_mem _

/-- A true slot is inside the grid. -/
theorem getB_lt_of_true {g : List (List Bool)} {i j : Nat}
    (h : getB g i j = true) : i < g.length := by
  by_contra hlt
  unfold getB at h
  rw [getD_of_length_le g i [] (by omega)] at h
  simp [List.getD] at h

/-- `setB` preserves the grid's length. -/
theorem setB_length (g : List (List Bool)) (i j : Nat) :
    (setB g i j).length = g.length :=
  List.length_set g i _

/-- `setB` preserves the widths of all rows. -/
theorem setB_dims {g : List (List Bool)} {n : Nat} (hd : GridDims g n) (i j : Nat) :
    GridDims (setB g i j) n := by
  intro row hrow
  rcases List.mem_or_eq_of_mem_set hrow with hmem | rfl
  · exact hd row hmem
  · by_cases hi : i < g.length
    · rw [List.length_set]
      exact hd (g.getD i []) (getD_mem g i [] hi)
    · unfold setB at hrow
      rw [List.set_eq_of_length_le (by omega)] at hrow
      rw [List.length_set]
      rw [getD_of_length_le g i [] (by omega)]
      rw [getD_of_length_le g i [] (by omega)] at hrow
      simp at hrow
      exact hd _ hrow

/-- `setB` sets its slot to true when it is in range. -/
theorem getB_setB_self {g : List (List Bool)} {i j : Nat}
    (hi : i < g.length) (hj : j < (g.getD i []).length) :
    getB (setB g i j) i j = true := by
  unfold getB setB
  rw [getD_set_self g i _ [] hi, getD_set_self _ j true false hj]

/-- `setB` never clears a slot. -/
theorem getB_setB_mono {g : List (List Bool)} {i j : Nat} (i2 j2 : Nat)
    (h : getB g i j = true) : getB (setB g i2 j2) i j = true := by
  unfold getB setB at *
  by_cases hii : i2 = i
  · subst hii
    by_cases hlen : i2 < g.length
    · rw [getD_set_self g i2 _ [] hlen]
      by_cases hjj : j2 = j
      · subst hjj
        by_cases hjl : j2 < (g.getD i2 []).length
        · rw [getD_set_self _ j2 true false hjl]
        · rw [List.set_eq_of_length_le (by omega)]
          exact h
      · rw [getD_set_ne _ true false hjj]
        exact h
    · rw [List.set_eq_of_length_le (by omega)]
      exact h
  · rw [getD_set_ne _ _ [] hii]
    exact h

/-- Appending rows never clears a slot. -/
theorem getB_append_mono {g : List (List Bool)} (h2 : List (List Bool)) {i j : Nat}
    (ht : getB g i j = true) : getB (g ++ h2) i j = true := by
  have hi := getB_lt_of_true ht
  unfold getB at *
  rw [getD_append_left g h2 i [] hi]
  exact ht

/-! ### Lemmas about the shadow-recording loop -/

theorem markFold_length (i0 j0 d : Nat) :
    ∀ (es : List Nat) (g : List (List Bool)),
      (es.foldl (markSlot i0 j0 d) g).length = g.length := by
  intro es
  induction es with
  | nil => intro g; rfl
  | cons e es ih =>
    intro g
    rw [List.foldl_cons, ih]
    unfold markSlot
    split_ifs
    · rfl
    · exact setB_length g _ _

theorem markFold_dims (n i0 j0 d : Nat) :
    ∀ (es : List Nat) (g : List (List Bool)), GridDims g n →
      GridDims (es.foldl (markSlot i0 j0 d) g) n := by
  intro es
  induction es with
  | nil => intro g hd; exact hd
  | cons e es ih =>
    intro g hd
    rw [List.foldl_cons]
    refine ih _ ?_
    unfold markSlot
    split_ifs
    · exact hd
    · exact setB_dims hd _ _

theorem markFold_mono (i0 j0 d : Nat) {i j : Nat} :
    ∀ (es : List Nat) (g : List (List Bool)), getB g i j = true →
      getB (es.foldl (markSlot i0 j0 d) g) i j = true := by
  intro es
  induction es with
  | nil => intro g h; exact h
  | cons e es ih =>
    intro g h
    rw [List.foldl_cons]
    refine ih _ ?_
    unfold markSlot
    split_ifs
    · exact h
    · exact getB_setB_mono _ _ h

theorem markFold_covers (n i0 j0 d : Nat) :
    ∀ (es : List Nat) (g : List (List Bool)) (e : Nat), e ∈ es →
      ¬(d = 0 ∧ e = 0) → GridDims g n → i0 + d < g.length → j0 + e < n →
      getB (es.foldl (markSlot i0 j0 d) g) (i0 + d) (j0 + e) = true := by
  intro es
  induction es with
  | nil => intro g e he; simp at he
  | cons e2 es ih =>
    intro g e he hskip hd hlen hje
    rw [List.foldl_cons]
    rcases List.mem_cons.mp he with rfl | he2
    · refine markFold_mono i0 j0 d es _ ?_
      unfold markSlot
      rw [if_neg hskip]
      refine getB_setB_self hlen ?_
      rw [hd (g.getD (i0 + d) []) (getD_mem _ _ _ hlen)]
      exact hje
    · refine ih _ e he2 hskip ?_ ?_ hje
      · unfold markSlot
        split_ifs
        · exact hd
        · exact setB_dims hd _ _
      · unfold markSlot
        split_ifs
        · exact hlen
        · rw [setB_length]; exact hlen

theorem shadowStep_length_ge (n i0 j0 cs : Nat) (g : List (List Bool)) (d : Nat) :
    g.length ≤ (shadowStep n i0 j0 cs g d).length := by
  unfold shadowStep
  rw [markFold_length]
  split_ifs
  · rw [List.length_append]; omega
  · omega

theorem shadowStep_length (n i0 j0 cs : Nat) {g : List (List Bool)} {d : Nat}
    (h : i0 + d ≤ g.length) : i0 + d < (shadowStep n i0 j0 cs g d).length := by
  unfold shadowStep
  rw [markFold_length]
  split_ifs with hc
  · rw [List.length_append]
    simp only [List.length_singleton]
    omega
  · omega

theorem shadowStep_dims (n i0 j0 cs : Nat) {g : List (List Bool)} (d : Nat)
    (hd : GridDims g n) : GridDims (shadowStep n i0 j0 cs g d) n := by
  unfold shadowStep
  refine markFold_dims n i0 j0 d _ _ ?_
  split_ifs
  · intro row hrow
    rcases List.mem_append.mp hrow with hl | hr
    · exact hd row hl
    · rw [List.mem_singleton.mp hr]
      exact List.length_replicate n false
  · exact hd

theorem shadowStep_mono (n i0 j0 cs : Nat) {g : List (List Bool)} (d : Nat)
    {i j : Nat} (h : getB g i j = true) :
    getB (shadowStep n i0 j0 cs g d) i j = true := by
  unfold shadowStep
  refine markFold_mono i0 j0 d _ _ ?_
  split_ifs
  · exact getB_append_mono _ h
  · exact h

theorem shadowStep_covers (n i0 j0 cs : Nat) {g : List (List Bool)} {d : Nat}
    (hd : GridDims g n) (hlen : i0 + d ≤ g.length) (hjn : j0 + cs < n)
    (e : Nat) (he : e ≤ cs) (hskip : ¬(d = 0 ∧ e = 0)) :
    getB (shadowStep n i0 j0 cs g d) (i0 + d) (j0 + e) = true := by
  unfold shadowStep
  refine markFold_covers n i0 j0 d _ _ e (List.mem_range.mpr (by omega)) hskip ?_ ?_ (by omega)
  · split_ifs
    · intro row hrow
      rcases List.mem_append.mp hrow with hl | hr
      · exact hd row hl
      · rw [List.mem_singleton.mp hr]
        exact List.length_replicate n false
    · exact hd
  · split_ifs with hc
    · rw [List.length_append]
      simp only [List.length_singleton]
      omega
    · omega

theorem shadowMark_dims (n : Nat) {g : List (List Bool)} (i0 j0 cs rs : Nat)
    (hd : GridDims g n) : GridDims (shadowMark g n i0 j0 cs rs) n := by
  unfold shadowMark
  generalize List.range (rs + 1) = ds
  induction ds generalizing g with
  | nil => exact hd
  | cons d ds ih =>
    rw [List.foldl_cons]
    exact ih (shadowStep_dims n i0 j0 cs d hd)

theorem shadowMark_mono {g : List (List Bool)} (n i0 j0 cs rs : Nat)
    {i j : Nat} (h : getB g i j = true) :
    getB (shadowMark g n i0 j0 cs rs) i j = true := by
  unfold shadowMark
  generalize List.range (rs + 1) = ds
  induction ds generalizing g with
  | nil => exact h
  | cons d ds ih =>
    rw [List.foldl_cons]
    exact ih (shadowStep_mono n i0 j0 cs d h)

theorem shadowMark_succ (g : List (List Bool)) (n i0 j0 cs rs : Nat) :
    shadowMark g n i0 j0 cs (rs + 1) =
      shadowStep n i0 j0 cs (shadowMark g n i0 j0 cs rs) (rs + 1) := by
  unfold shadowMark
  rw [List.range_succ, List.foldl_append, List.foldl_cons, List.foldl_nil]

theorem shadowMark_progress {g : List (List Bool)} (n i0 j0 cs : Nat)
    (hlen : i0 < g.length) :
    ∀ rs, i0 + rs < (shadowMark g n i0 j0 cs rs).length := by
  intro rs
  induction rs with
  | zero =>
    have : shadowMark g n i0 j0 cs 0 = shadowStep n i0 j0 cs g 0 := by
      unfold shadowMark
      rw [show List.range 1 = [0] from rfl, List.foldl_cons, List.foldl_nil]
    rw [this]
    exact shadowStep_length n i0 j0 cs (by omega)
  | succ rs ih =>
    rw [shadowMark_succ]
    exact shadowStep_length n i0 j0 cs (by omega)

theorem shadowMark_covers (n : Nat) {g : List (List Bool)} {i0 j0 cs : Nat}
    (hd : GridDims g n) (hlen : i0 < g.length) (hjn : j0 + cs < n) :
    ∀ rs d e, d ≤ rs → e ≤ cs → ¬(d = 0 ∧ e = 0) →
      getB (shadowMark g n i0 j0 cs rs) (i0 + d) (j0 + e) = true := by
  intro rs
  induction rs with
  | zero =>
    intro d e hdr he hskip
    have hd0 : d = 0 := by omega
    subst hd0
    have : shadowMark g n i0 j0 cs 0 = shadowStep n i0 j0 cs g 0 := by
      unfold shadowMark
      rw [show List.range 1 = [0] from rfl, List.foldl_cons, List.foldl_nil]
    rw [this]
    exact shadowStep_covers n i0 j0 cs hd (by omega) hjn e he hskip
  | succ rs ih =>
    intro d e hdr he hskip
    rw [shadowMark_succ]
    by_cases hdl : d ≤ rs
    · exact shadowStep_mono n i0 j0 cs (rs + 1) (ih d e hdl he hskip)
    · have hdeq : d = rs + 1 := by omega
      subst hdeq
      exact shadowStep_covers n i0 j0 cs (shadowMark_dims n i0 j0 cs rs hd)
        (by have := shadowMark_progress n i0 j0 cs hlen rs; omega) hjn e he hskip

/-! ### Writer step lemmas -/

theorem nextRow_config (w : Writer) : (nextRow w).config = w.config := rfl

theorem nextRow_currentRow (w : Writer) :
    (nextRow w).currentRow = w.currentRow + 1 := rfl

theorem nextRow_shadow_mono (w : Writer) {i j : Nat}
    (h : getB w.shadowed i j = true) : getB (nextRow w).shadowed i j = true := by
  show getB (if w.shadowed.length = w.cells.length
      then w.shadowed ++ [List.replicate w.config.columns.length false]
      else w.shadowed) i j = true
  split_ifs
  · exact getB_append_mono _ h
  · exact h

theorem nextRow_written_mono (w : Writer) {i j : Nat}
    (h : getB w.written i j = true) : getB (nextRow w).written i j = true :=
  getB_append_mono _ h

theorem nextRowN_config (k : Nat) : ∀ (w : Writer), (nextRowN k w).config = w.config := by
  induction k with
  | zero => intro w; rfl
  | succ k ih => intro w; rw [nextRowN, ih, nextRow_config]

theorem nextRowN_currentRow (k : Nat) :
    ∀ (w : Writer), (nextRowN k w).currentRow = w.currentRow + k := by
  induction k with
  | zero => intro w; rfl
  | succ k ih =>
    intro w
    rw [nextRowN, ih, nextRow_currentRow]
    omega

theorem nextRowN_shadow_mono (k : Nat) :
    ∀ (w : Writer) {i j : Nat}, getB w.shadowed i j = true →
      getB (nextRowN k w).shadowed i j = true := by
  induction k with
  | zero => intro w i j h; exact h
  | succ k ih => intro w i j h; exact ih _ (nextRow_shadow_mono w h)

theorem nextRowN_written_mono (k : Nat) :
    ∀ (w : Writer) {i j : Nat}, getB w.written i j = true →
      getB (nextRowN k w).written i j = true := by
  induction k with
  | zero => intro w i j h; exact h
  | succ k ih => intro w i j h; exact ih _ (nextRow_written_mono w h)

/-- A successful `writeColumn` is exactly: every check passed and the mutation
phase ran. -/
theorem writeColumn_ok {w w1 : Writer} {index : Int} {cell : Cell}
    (h : writeColumn w index cell = (none, w1)) :
    writeColumnCheck w index cell = none ∧ w1 = writeColumnApply w index cell := by
  unfold writeColumn at h
  cases hc : writeColumnCheck w index cell with
  | some e => rw [hc] at h; simp at h
  | none =>
    rw [hc] at h
    simp only [Prod.mk.injEq] at h
    exact ⟨rfl, h.2.symm⟩

/-- What passing all checks says about the index and spans. -/
theorem writeColumnCheck_none {w : Writer} {index : Int} {cell : Cell}
    (h : writeColumnCheck w index cell = none) :
    0 ≤ index ∧ index < (w.config.columns.length : Int) ∧ 0 ≤ cell.colSpan ∧
      0 ≤ cell.rowSpan ∧ index + cell.colSpan < (w.config.columns.length : Int) := by
  unfold writeColumnCheck at h
  split_ifs at h with h1 h2 h3 h4 h5 h6 h7 h8 h9 <;> simp_all

/-! ### Claim C4, amended -/

/-- C4 amended: for two cells with DISTINCT origin slots whose span footprints
intersect, once the first has been written successfully (from any writer state
with consistent grid dimensions), writing the second — after advancing `k`
rows to its origin row, with its index, spans and header placement otherwise
valid — always fails with ShadowedCell or OverlappingSpans.  The cell written
first is `A` at column `iA` in the writer's current row `r`; the second is `B`
at column `iB` in row `r + k`.  Footprint intersection is
`k ≤ A.rowSpan ∧ iB ≤ iA + A.colSpan ∧ iA ≤ iB + B.colSpan`, and
"distinct origins" excludes `k = 0 ∧ iB = iA` (writing the same slot twice is
NOT rejected; see the counterexample). -/
theorem c4_distinct_intersecting_write_fails
    (w w1 : Writer) (iA iB : Int) (A B : Cell) (k : Nat)
    (hwrlen : w.written.length = w.currentRow + 1)
    (hshlen : w.currentRow < w.shadowed.length)
    (hdimS : GridDims w.shadowed w.config.columns.length)
    (hdimW : GridDims w.written w.config.columns.length)
    (hA : writeColumn w iA A = (none, w1))
    (hB1 : 0 ≤ iB) (hB2 : iB < (w.config.columns.length : Int))
    (hB3 : 0 ≤ B.colSpan) (hB4 : 0 ≤ B.rowSpan)
    (hB5 : iB + B.colSpan < (w.config.columns.length : Int))
    (hB6 : ¬ headerViolation (nextRowN k w1) B)
    (hrowint : k ≤ A.rowSpan.toNat)
    (hcolint1 : iB.toNat ≤ iA.toNat + A.colSpan.toNat)
    (hcolint2 : iA.toNat ≤ iB.toNat + B.colSpan.toNat)
    (hdistinct : ¬(k = 0 ∧ iB = iA)) :
    (writeColumn (nextRowN k w1) iB B).1 = some .shadowedCell ∨
      (writeColumn (nextRowN k w1) iB B).1 = some .overlappingSpans := by
  obtain ⟨hchk, hw1eq⟩ := writeColumn_ok hA
  obtain ⟨hA1, hA2, hA3, hA4, hA5⟩ := writeColumnCheck_none hchk
  subst hw1eq
  have hjn : iA.toNat + A.colSpan.toNat < w.config.columns.length := by omega
  have hsh1 : ∀ d e : Nat, d ≤ A.rowSpan.toNat → e ≤ A.colSpan.toNat →
      ¬(d = 0 ∧ e = 0) →
      getB (nextRowN k (writeColumnApply w iA A)).shadowed
        (w.currentRow + d) (iA.toNat + e) = true := by
    intro d e hd he hskip
    refine nextRowN_shadow_mono k _ ?_
    show getB (shadowMark w.shadowed w.config.columns.length w.currentRow iA.toNat
        A.colSpan.toNat A.rowSpan.toNat) (w.currentRow + d) (iA.toNat + e) = true
    exact shadowMark_covers w.config.columns.length hdimS hshlen hjn
      A.rowSpan.toNat d e hd he hskip
  have hwr1 : getB (nextRowN k (writeColumnApply w iA A)).written
      w.currentRow iA.toNat = true := by
    refine nextRowN_written_mono k _ ?_
    show getB (setB w.written w.currentRow iA.toNat) w.currentRow iA.toNat = true
    refine getB_setB_self (by omega) ?_
    rw [hdimW _ (getD_mem _ _ _ (by omega))]
    omega
  have hcfg : (nextRowN k (writeColumnApply w iA A)).config = w.config := by
    rw [nextRowN_config]
    rfl
  have hcur : (nextRowN k (writeColumnApply w iA A)).currentRow =
      w.currentRow + k := by
    rw [nextRowN_currentRow]
    rfl
  have hG1 : ¬ iB < 0 := by omega
  have hG2 : ¬ ((nextRowN k (writeColumnApply w iA A)).config.columns.length : Int) ≤
      iB := by
    rw [hcfg]; omega
  have hG3 : ¬ B.colSpan < 0 := by omega
  have hG4 : ¬ B.rowSpan < 0 := by omega
  have hG5 : ¬ ((nextRowN k (writeColumnApply w iA A)).config.columns.length : Int) ≤
      iB + B.colSpan := by
    rw [hcfg]; omega
  have hkey : getB (nextRowN k (writeColumnApply w iA A)).shadowed
        (nextRowN k (writeColumnApply w iA A)).currentRow iB.toNat = true ∨
      ((List.range B.colSpan.toNat).any fun d =>
        getB (nextRowN k (writeColumnApply w iA A)).written
          (nextRowN k (writeColumnApply w iA A)).currentRow (iB.toNat + 1 + d)) = true ∨
      ((List.range (B.rowSpan.toNat + 1)).any fun d =>
        (List.range (B.colSpan.toNat + 1)).any fun e =>
          getB (nextRowN k (writeColumnApply w iA A)).shadowed
            ((nextRowN k (writeColumnApply w iA A)).currentRow + d)
            (iB.toNat + e)) = true := by
    by_cases hj : iA.toNat ≤ iB.toNat
    · left
      rw [hcur]
      have hskip : ¬(k = 0 ∧ iB.toNat - iA.toNat = 0) := by
        rintro ⟨rfl, hz⟩
        exact hdistinct ⟨rfl, by omega⟩
      have hfact := hsh1 k (iB.toNat - iA.toNat) hrowint (by omega) hskip
      rw [show iA.toNat + (iB.toNat - iA.toNat) = iB.toNat from by omega] at hfact
      exact hfact
    · push_neg at hj
      by_cases hk : k = 0
      · right; left
        subst hk
        refine List.any_eq_true.mpr
          ⟨iA.toNat - iB.toNat - 1, List.mem_range.mpr (by omega), ?_⟩
        rw [hcur]
        rw [show iB.toNat + 1 + (iA.toNat - iB.toNat - 1) = iA.toNat from by omega]
        rw [show w.currentRow + 0 = w.currentRow from rfl]
        exact hwr1
      · right; right
        refine List.any_eq_true.mpr ⟨0, List.mem_range.mpr (by omega), ?_⟩
        refine List.any_eq_true.mpr
          ⟨iA.toNat - iB.toNat, List.mem_range.mpr (by omega), ?_⟩
        rw [hcur]
        rw [show iB.toNat + (iA.toNat - iB.toNat) = iA.toNat from by omega]
        rw [show w.currentRow + k + 0 = w.currentRow + k from rfl]
        have hfact := hsh1 k 0 hrowint (by omega) (by rintro ⟨rfl, _⟩; exact hk rfl)
        rw [show iA.toNat + 0 = iA.toNat from rfl] at hfact
        exact hfact
  rw [writeColumn_fst]
  unfold writeColumnCheck
  rw [if_neg hG1, if_neg hG2, if_neg hG3, if_neg hG4, if_neg hG5, if_neg hB6]
  rcases hkey with hc1 | hc2 | hc3
  · rw [if_pos hc1]
    left
    rfl
  · by_cases hc1 : getB (nextRowN k (writeColumnApply w iA A)).shadowed
        (nextRowN k (writeColumnApply w iA A)).currentRow iB.toNat = true
    · rw [if_pos hc1]
      left
      rfl
    · rw [if_neg hc1, if_pos hc2]
      left
      rfl
  · by_cases hc1 : getB (nextRowN k (writeColumnApply w iA A)).shadowed
        (nextRowN k (writeColumnApply w iA A)).currentRow iB.toNat = true
    · rw [if_pos hc1]
      left
      rfl
    · by_cases hc2 : ((List.range B.colSpan.toNat).any fun d =>
          getB (nextRowN k (writeColumnApply w iA A)).written
            (nextRowN k (writeColumnApply w iA A)).currentRow (iB.toNat + 1 + d)) = true
      · rw [if_neg hc1, if_pos hc2]
        left
        rfl
      · rw [if_neg hc1, if_neg hc2, if_pos hc3]
        right
        rfl

/-- C4 witness: the repository's `TestOverlappingSpans` scenario — cell "B" at
column 1 spanning one extra row, then after `NextRow` cell "C" at column 0
spanning one extra column — fails with ShadowedCell or OverlappingSpans. -/
theorem c4_witness :
    (writeColumn (nextRowN 1 (writeColumn wTwoCols 1 (mkCell "B" 1 0)).2) 0
        (mkCell "C" 0 1)).1 = some .shadowedCell ∨
      (writeColumn (nextRowN 1 (writeColumn wTwoCols 1 (mkCell "B" 1 0)).2) 0
        (mkCell "C" 0 1)).1 = some .overlappingSpans :=
  c4_distinct_intersecting_write_fails wTwoCols
    (writeColumn wTwoCols 1 (mkCell "B" 1 0)).2 1 0 (mkCell "B" 1 0) (mkCell "C" 0 1) 1
    (by decide) (by decide) (by decide) (by decide) (by decide) (by decide)
    (by decide) (by decide) (by decide) (by decide) (by decide) (by decide)
    (by decide) (by decide) (by decide)

end GridTable
